import Mathlib

/-!
Verification of the crash-graphs pipeline (`main.py`): a four-stage batch
report generator (fetch → extract → aggregate → render).  The definitions
below shallowly embed the Python source: JSON/Python values become the
inductive `Py`, the record mappings become association lists, pandas
`Series` values become `List String` / `List (String × Nat)`, and the
fetcher's network call becomes an explicit response oracle.
-/

set_option maxHeartbeats 1000000

open List

/-- A Python/JSON value, as handled by `main.py`: `None`, strings, integers,
booleans, lists and dicts (with string keys, as produced by JSON parsing). -/
inductive Py where
  | none
  | str (s : String)
  | int (n : Int)
  | bool (b : Bool)
  | list (xs : List Py)
  | dict (fields : List (String × Py))

/-- A crash record: an opaque string-keyed mapping (Python dict), embedded as
an association list whose first binding for a key is authoritative. -/
abbrev PyDict := List (String × Py)

mutual
/-- Python `repr`, used by `str` on the elements of containers. -/
def pyRepr : Py → String
  | Py.none => "None"
  | Py.str s => "\x27" ++ s ++ "\x27"
  | Py.int n => toString n
  | Py.bool b => if b then "True" else "False"
  | Py.list xs => "[" ++ String.intercalate ", " (pyReprList xs) ++ "]"
  | Py.dict fs => "\x7b" ++ String.intercalate ", " (pyReprFields fs) ++ "\x7d"

/-- `repr` of each element of a Python list. -/
def pyReprList : List Py → List String
  | [] => []
  | x :: xs => pyRepr x :: pyReprList xs

/-- `repr` of each `key: value` entry of a Python dict. -/
def pyReprFields : List (String × Py) → List String
  | [] => []
  | (k, v) :: fs => ("\x27" ++ k ++ "\x27: " ++ pyRepr v) :: pyReprFields fs
end

/-- Python `str()` coercion: identity on strings, `repr`-based rendering of
containers, `None`/`True`/`False` and decimal integers otherwise. -/
def pyStr : Py → String
  | Py.str s => s
  | v => pyRepr v

/-- Python truthiness: `None`, `""`, `0`, `False` and empty containers are
falsy; everything else is truthy. -/
def truthy : Py → Bool
  | Py.none => false
  | Py.str s => s ≠ ""
  | Py.int n => n ≠ 0
  | Py.bool b => b
  | Py.list xs => !xs.isEmpty
  | Py.dict fs => !fs.isEmpty

/-- Whether Python `len()` succeeds on the value (strings, lists and dicts
have a length; `None`, numbers and booleans raise `TypeError`). -/
def hasLen : Py → Bool
  | Py.str _ => true
  | Py.list _ => true
  | Py.dict _ => true
  | _ => false

/-- The ASCII whitespace characters removed by Python `str.strip()`:
space, tab, newline, carriage return, vertical tab and form feed. -/
def pySpace (c : Char) : Bool :=
  c == ' ' || c == '\t' || c == '\n' || c == '\r' || c == '\x0b' || c == '\x0c'

/-- Python `str.strip()`: remove leading and trailing whitespace. -/
def pyStrip (s : String) : String :=
  String.mk (((s.data.dropWhile pySpace).reverse.dropWhile pySpace).reverse)

/-- What `extract_vehicle_makes` does with one crash record: read the
`"vehicleMake"` key (`crash.get`), test Python truthiness of the raw value,
and on success string-coerce and trim it (`str(vehicle_make).strip()`). -/
def extractOne (crash : PyDict) : Option String :=
  match crash.lookup "vehicleMake" with
  | some v => if truthy v then some (pyStrip (pyStr v)) else Option.none
  | Option.none => Option.none

/-- The `for` loop of `extract_vehicle_makes`, appending to the `makes`
accumulator in iteration order. -/
def extractLoop : List PyDict → List String → List String
  | [], acc => acc
  | crash :: rest, acc =>
    match crash.lookup "vehicleMake" with
    | some v =>
      if truthy v then extractLoop rest (acc ++ [pyStrip (pyStr v)])
      else extractLoop rest acc
    | Option.none => extractLoop rest acc

/-- `extract_vehicle_makes` (main.py lines 100–125): returns the empty series
when given no data, otherwise runs the extraction loop. -/
def extract_vehicle_makes (crash_data : List PyDict) : List String :=
  if crash_data.isEmpty then [] else extractLoop crash_data []

/-- Number of occurrences of the exact string `v` in the series (the count
pandas `value_counts` assigns to the distinct value `v`). -/
def countOcc (l : List String) (v : String) : Nat :=
  (l.filter (fun y => y == v)).length

/-- Distinct values of the series in order of first appearance, carrying the
set of values already seen (the key order produced by pandas `factorize`
inside `value_counts`). -/
def firstSeenAux : List String → List String → List String
  | [], _ => []
  | x :: xs, seen =>
    if x ∈ seen then firstSeenAux xs seen else x :: firstSeenAux xs (x :: seen)

/-- Distinct values of the series in order of first appearance. -/
def firstSeen (l : List String) : List String :=
  firstSeenAux l []

/-- Insert an entry below every entry of at least its count: one step of the
stable descending-by-count ordering of `value_counts`. -/
def insertDesc (x : String × Nat) : List (String × Nat) → List (String × Nat)
  | [] => [x]
  | y :: ys => if x.2 ≤ y.2 then y :: insertDesc x ys else x :: y :: ys

/-- Stable sort, descending by count (the `sort_values(ascending=False)` step
of pandas `value_counts`; ties keep their first-appearance order). -/
def sortDesc (l : List (String × Nat)) : List (String × Nat) :=
  l.foldl (fun acc x => insertDesc x acc) []

/-- Modelled from the pandas library call `Series.value_counts()` in
`get_top_vehicle_brands`: pair each distinct value (in first-appearance
order) with its occurrence count, then stably sort descending by count. -/
def value_counts (make_series : List String) : List (String × Nat) :=
  sortDesc ((firstSeen make_series).map (fun v => (v, countOcc make_series v)))

/-- Modelled from pandas `Series.head(n)`: the first `n` entries when
`n ≥ 0`, and all but the last `|n|` entries when `n < 0`. -/
def seriesHead (n : Int) (l : List (String × Nat)) : List (String × Nat) :=
  if 0 ≤ n then l.take n.toNat else l.take (l.length - (-n).toNat)

/-- `get_top_vehicle_brands` (main.py lines 131–138): empty series in, empty
series out; otherwise `value_counts().head(top_n)`. -/
def get_top_vehicle_brands (make_series : List String) (top_n : Int) : List (String × Nat) :=
  if make_series.isEmpty then [] else seriesHead top_n (value_counts make_series)

/-- The module-scope API key constant of main.py, left at its placeholder. -/
def NHTSA_API_KEY : String := "YOUR_NHTSA_API_KEY"

/-- The fixed full-name → two-letter-code lookup table (main.py lines 13–28):
the 50 states plus the District of Columbia. -/
def STATE_CODE_MAP : List (String × String) :=
  [("ALABAMA", "AL"), ("ALASKA", "AK"), ("ARIZONA", "AZ"), ("ARKANSAS", "AR"),
   ("CALIFORNIA", "CA"), ("COLORADO", "CO"), ("CONNECTICUT", "CT"), ("DELAWARE", "DE"),
   ("FLORIDA", "FL"), ("GEORGIA", "GA"), ("HAWAII", "HI"), ("IDAHO", "ID"),
   ("ILLINOIS", "IL"), ("INDIANA", "IN"), ("IOWA", "IA"), ("KANSAS", "KS"),
   ("KENTUCKY", "KY"), ("LOUISIANA", "LA"), ("MAINE", "ME"), ("MARYLAND", "MD"),
   ("MASSACHUSETTS", "MA"), ("MICHIGAN", "MI"), ("MINNESOTA", "MN"), ("MISSISSIPPI", "MS"),
   ("MISSOURI", "MO"), ("MONTANA", "MT"), ("NEBRASKA", "NE"), ("NEVADA", "NV"),
   ("NEW HAMPSHIRE", "NH"), ("NEW JERSEY", "NJ"), ("NEW MEXICO", "NM"), ("NEW YORK", "NY"),
   ("NORTH CAROLINA", "NC"), ("NORTH DAKOTA", "ND"), ("OHIO", "OH"), ("OKLAHOMA", "OK"),
   ("OREGON", "OR"), ("PENNSYLVANIA", "PA"), ("RHODE ISLAND", "RI"), ("SOUTH CAROLINA", "SC"),
   ("SOUTH DAKOTA", "SD"), ("TENNESSEE", "TN"), ("TEXAS", "TX"), ("UTAH", "UT"),
   ("VERMONT", "VT"), ("VIRGINIA", "VA"), ("WASHINGTON", "WA"), ("WEST VIRGINIA", "WV"),
   ("WISCONSIN", "WI"), ("WYOMING", "WY"),
   ("DISTRICT OF COLUMBIA", "DC")]

/-- Python `str.upper()` (ASCII uppercasing, character by character). -/
def pyUpper (s : String) : String :=
  String.mk (s.data.map Char.toUpper)

/-- Region resolution (main.py lines 58–62): uppercase the region string and
substitute through `STATE_CODE_MAP`, falling back to the uppercased input
(`STATE_CODE_MAP.get(state_upper, state_upper)`). -/
def resolve_state (state : String) : String :=
  (STATE_CODE_MAP.lookup (pyUpper state)).getD (pyUpper state)

/-- What `fetch_crash_data` does with a parsed response body (main.py lines
74–84): read `data.get("Results", [])`; when it is a non-empty list, take its
first element and call `len` on it for the success message — a value without
a length makes `len` raise, and the handler turns that into `[]`; every other
shape (non-dict body, missing / non-list / empty `Results`) yields `[]`. -/
def parse_results (data : Py) : Py :=
  match data with
  | Py.dict fields =>
    match (fields.lookup "Results").getD (Py.list []) with
    | Py.list (first :: _) => if hasLen first then first else Py.list []
    | _ => Py.list []
  | _ => Py.list []

/-- The outcome of the single `requests.get` / `raise_for_status` /
`response.json()` sequence, as seen by `fetch_crash_data`. -/
inductive HttpResp where
  | netError
  | httpStatusError
  | invalidJson
  | ok (body : Py)

/-- `fetch_crash_data` (main.py lines 34–94), parametrised by the value the
module constant holds and by the network outcome.  Returns the records value
together with whether a network request was attempted.  Every handler
(`RequestException`, `ValueError`, bare `Exception`) returns `[]`, so the
function is total: no exception reaches the caller. -/
def fetch_with_key (key : String) (resp : HttpResp) : Py × Bool :=
  if key = "YOUR_NHTSA_API_KEY" then (Py.list [], false)
  else
    match resp with
    | HttpResp.netError => (Py.list [], true)
    | HttpResp.httpStatusError => (Py.list [], true)
    | HttpResp.invalidJson => (Py.list [], true)
    | HttpResp.ok body => (parse_results body, true)

/-- `fetch_crash_data` as shipped: the key is the placeholder constant. -/
def fetch_crash_data (resp : HttpResp) : Py × Bool :=
  fetch_with_key NHTSA_API_KEY resp

/-- The observable outcome of `plot_top_brands`: either the empty-input
warning with no chart, or a rendered bar chart whose bars are the given
entries in order. -/
inductive PlotResult where
  | warned
  | rendered (bars : List (String × Nat))
deriving DecidableEq

/-- `plot_top_brands` (main.py lines 144–161): warn and skip rendering on an
empty series, otherwise render one bar per entry in the given order. -/
def plot_top_brands (brand_counts : List (String × Nat)) : PlotResult :=
  if brand_counts.isEmpty then PlotResult.warned else PlotResult.rendered brand_counts

/-- Modelled from the pandas library call `Series.to_csv(csv_path,
index_label="Vehicle Brand")` in `main`: a header row whose first column is
the index label "Vehicle Brand" and second column the series name, then one
`index,value` row per entry in series order, with no re-sorting. -/
def csvRows (top : List (String × Nat)) : List (List String) :=
  ["Vehicle Brand", "count"] :: top.map (fun p => [p.1, toString p.2])

/-- The observable outcome of the post-fetch part of `main`: which diagnostic
short-circuit was taken, or the written CSV rows plus the plot result. -/
inductive PipelineOutcome where
  | noData
  | noMakes
  | noBrands
  | reported (rows : List (List String)) (plot : PlotResult)
deriving DecidableEq

/-- The pipeline body of `main` (main.py lines 179–201) applied to the fetched
record list: each stage checks emptiness and short-circuits with a diagnostic
and no file write; otherwise the ranked counts are written as CSV rows and
plotted. -/
def run_pipeline (crash_data : List PyDict) : PipelineOutcome :=
  if crash_data.isEmpty then PipelineOutcome.noData
  else if (extract_vehicle_makes crash_data).isEmpty then PipelineOutcome.noMakes
  else if !(get_top_vehicle_brands (extract_vehicle_makes crash_data) 10).isEmpty then
    PipelineOutcome.reported
      (csvRows (get_top_vehicle_brands (extract_vehicle_makes crash_data) 10))
      (plot_top_brands (get_top_vehicle_brands (extract_vehicle_makes crash_data) 10))
  else PipelineOutcome.noBrands

/-! ### Lemmas about the extractor -/

theorem extractLoop_eq (l : List PyDict) :
    ∀ acc : List String, extractLoop l acc = acc ++ l.filterMap extractOne := by
  induction l with
  | nil => intro acc; simp [extractLoop]
  | cons crash rest ih =>
    intro acc
    simp only [extractLoop, extractOne, List.filterMap_cons]
    cases h : crash.lookup "vehicleMake" with
    | none => simp [ih]
    | some v =>
      cases ht : truthy v with
      | false => simp [ht, ih]
      | true => simp [ht, ih]

theorem extract_eq_filterMap (l : List PyDict) :
    extract_vehicle_makes l = l.filterMap extractOne := by
  cases l with
  | nil => rfl
  | cons c r => simp [extract_vehicle_makes, extractLoop_eq]

/-- C7: for every input record list, the output of `extract_vehicle_makes` is
no longer than the input, the extracted strings appear in input order (the
output is the in-order `filterMap` of the per-record extraction), and the
empty input list yields the empty output sequence. -/
theorem extract_makes_length_order (records : List PyDict) :
    (extract_vehicle_makes records).length ≤ records.length ∧
    extract_vehicle_makes records = records.filterMap extractOne ∧
    extract_vehicle_makes ([] : List PyDict) = [] := by
  refine ⟨?_, extract_eq_filterMap records, rfl⟩
  rw [extract_eq_filterMap]
  exact List.length_filterMap_le _ _

/-- C10: extraction distributes over concatenation of record lists, so the
extraction of each record is independent of the records around it. -/
theorem extract_makes_append (xs ys : List PyDict) :
    extract_vehicle_makes (xs ++ ys) =
      extract_vehicle_makes xs ++ extract_vehicle_makes ys := by
  simp [extract_eq_filterMap]

/-- C1 counterexample: a record whose `vehicleMake` field is the whitespace-only
string `" "` is NOT dropped — the raw value is truthy, so the record survives
the check and its trimmed coercion, the empty string, appears in the output. -/
theorem extract_whitespace_only_kept :
    extract_vehicle_makes [[("vehicleMake", Py.str " ")]] = [""] ∧
    "" ∈ extract_vehicle_makes [[("vehicleMake", Py.str " ")]] :=
  ⟨by decide, by decide⟩

/-! ### Lemmas about the aggregator's stable descending sort -/

theorem insertDesc_perm (x : String × Nat) (l : List (String × Nat)) :
    insertDesc x l ~ x :: l := by
  induction l with
  | nil => exact List.Perm.refl _
  | cons y ys ih =>
    simp only [insertDesc]
    by_cases h : x.2 ≤ y.2
    · rw [if_pos h]
      exact (ih.cons y).trans (List.Perm.swap x y ys)
    · rw [if_neg h]

theorem sortDescAux_perm (l : List (String × Nat)) :
    ∀ acc, l.foldl (fun acc x => insertDesc x acc) acc ~ acc ++ l := by
  induction l with
  | nil => intro acc; simp
  | cons x xs ih =>
    intro acc
    simp only [List.foldl_cons]
    refine (ih (insertDesc x acc)).trans ?_
    calc insertDesc x acc ++ xs
        ~ (x :: acc) ++ xs := (insertDesc_perm x acc).append_right xs
      _ ~ acc ++ x :: xs := List.perm_middle.symm

theorem sortDesc_perm (l : List (String × Nat)) : sortDesc l ~ l := by
  simpa using sortDescAux_perm l []

theorem insertDesc_pairwise {x : String × Nat} {l : List (String × Nat)}
    (h : l.Pairwise (fun p q => q.2 ≤ p.2)) :
    (insertDesc x l).Pairwise (fun p q => q.2 ≤ p.2) := by
  induction l with
  | nil => simp [insertDesc]
  | cons y ys ih =>
    rcases List.pairwise_cons.mp h with ⟨hy, hys⟩
    simp only [insertDesc]
    by_cases hc : x.2 ≤ y.2
    · rw [if_pos hc]
      refine List.pairwise_cons.mpr ⟨?_, ih hys⟩
      intro z hz
      rcases List.mem_cons.mp ((insertDesc_perm x ys).mem_iff.mp hz) with h1 | h2
      · subst h1; exact hc
      · exact hy z h2
    · rw [if_neg hc]
      refine List.pairwise_cons.mpr ⟨?_, h⟩
      intro z hz
      rcases List.mem_cons.mp hz with h1 | h2
      · subst h1; exact Nat.le_of_lt (Nat.lt_of_not_le hc)
      · exact Nat.le_trans (hy z h2) (Nat.le_of_lt (Nat.lt_of_not_le hc))

theorem sortDescAux_pairwise (l : List (String × Nat)) :
    ∀ acc, acc.Pairwise (fun p q => q.2 ≤ p.2) →
      (l.foldl (fun acc x => insertDesc x acc) acc).Pairwise (fun p q => q.2 ≤ p.2) := by
  induction l with
  | nil => intro acc h; simpa using h
  | cons x xs ih => intro acc h; exact ih _ (insertDesc_pairwise h)

theorem sortDesc_pairwise (l : List (String × Nat)) :
    (sortDesc l).Pairwise (fun p q => q.2 ≤ p.2) :=
  sortDescAux_pairwise l [] List.Pairwise.nil

theorem insertDesc_filter {x : String × Nat} {l : List (String × Nat)} (c : Nat)
    (h : l.Pairwise (fun p q => q.2 ≤ p.2)) :
    (insertDesc x l).filter (fun p => p.2 == c) =
      l.filter (fun p => p.2 == c) ++ (if x.2 == c then [x] else []) := by
  induction l with
  | nil => simp only [insertDesc, List.filter_nil, List.nil_append, List.filter_cons,
      List.filter_nil]
  | cons y ys ih =>
    rcases List.pairwise_cons.mp h with ⟨hy, hys⟩
    simp only [insertDesc]
    by_cases hc : x.2 ≤ y.2
    · rw [if_pos hc, List.filter_cons, List.filter_cons]
      by_cases hyc : (y.2 == c) = true
      · simp only [hyc, if_true, ih hys, List.cons_append]
      · simp only [hyc, if_false, ih hys]
        simp [hyc]
    · rw [if_neg hc]
      have hxy : y.2 < x.2 := Nat.lt_of_not_le hc
      by_cases hxc : (x.2 == c) = true
      · have hxeq : x.2 = c := by simpa using hxc
        have hyemp : (y :: ys).filter (fun p => p.2 == c) = [] := by
          refine List.filter_eq_nil_iff.mpr ?_
          intro a ha
          have hle : a.2 ≤ y.2 := by
            rcases List.mem_cons.mp ha with h1 | h2
            · exact h1 ▸ Nat.le_refl _
            · exact hy a h2
          have hlt : a.2 < c := hxeq ▸ Nat.lt_of_le_of_lt hle hxy
          simp [Nat.ne_of_lt hlt]
        rw [List.filter_cons, hyemp]
        simp [hxc]
      · rw [List.filter_cons]
        simp [hxc]

theorem sortDescAux_filter (c : Nat) (l : List (String × Nat)) :
    ∀ acc, acc.Pairwise (fun p q => q.2 ≤ p.2) →
      (l.foldl (fun acc x => insertDesc x acc) acc).filter (fun p => p.2 == c) =
        acc.filter (fun p => p.2 == c) ++ l.filter (fun p => p.2 == c) := by
  induction l with
  | nil => intro acc _; simp
  | cons x xs ih =>
    intro acc h
    simp only [List.foldl_cons]
    rw [ih _ (insertDesc_pairwise h), insertDesc_filter c h, List.filter_cons]
    by_cases hxc : (x.2 == c) = true
    · simp [hxc, List.append_assoc]
    · simp [hxc]

/-- Stability of the `value_counts` sort: the entries carrying any fixed count
appear in the sorted output exactly as they appeared in the input. -/
theorem sortDesc_filter (c : Nat) (l : List (String × Nat)) :
    (sortDesc l).filter (fun p => p.2 == c) = l.filter (fun p => p.2 == c) := by
  simpa using sortDescAux_filter c l [] List.Pairwise.nil

/-! ### Lemmas about `firstSeen` and occurrence counts -/

theorem mem_firstSeenAux (a : String) (l : List String) :
    ∀ seen, a ∈ firstSeenAux l seen ↔ a ∈ l ∧ a ∉ seen := by
  induction l with
  | nil => intro seen; simp [firstSeenAux]
  | cons x xs ih =>
    intro seen
    simp only [firstSeenAux]
    by_cases hx : x ∈ seen
    · rw [if_pos hx, ih]
      constructor
      · rintro ⟨h1, h2⟩; exact ⟨List.mem_cons_of_mem _ h1, h2⟩
      · rintro ⟨h1, h2⟩
        rcases List.mem_cons.mp h1 with rfl | h3
        · exact absurd hx h2
        · exact ⟨h3, h2⟩
    · rw [if_neg hx]
      simp only [List.mem_cons, ih]
      constructor
      · rintro (rfl | ⟨h1, h2⟩)
        · exact ⟨Or.inl rfl, hx⟩
        · exact ⟨Or.inr h1, fun hs => h2 (Or.inr hs)⟩
      · rintro ⟨h1, h2⟩
        by_cases hax : a = x
        · exact Or.inl hax
        · rcases h1 with rfl | h3
          · exact Or.inl rfl
          · exact Or.inr ⟨h3, fun hs => hs.elim hax h2⟩

theorem firstSeenAux_nodup (l : List String) :
    ∀ seen, (firstSeenAux l seen).Nodup := by
  induction l with
  | nil => intro seen; simp [firstSeenAux]
  | cons x xs ih =>
    intro seen
    simp only [firstSeenAux]
    by_cases hx : x ∈ seen
    · rw [if_pos hx]; exact ih seen
    · rw [if_neg hx]
      refine List.nodup_cons.mpr ⟨?_, ih _⟩
      intro hmem
      exact ((mem_firstSeenAux x xs _).mp hmem).2 (List.mem_cons_self x seen)

theorem firstSeen_nodup (l : List String) : (firstSeen l).Nodup :=
  firstSeenAux_nodup l []

theorem countOcc_cons (a : String) (l : List String) (v : String) :
    countOcc (a :: l) v = (if a == v then 1 else 0) + countOcc l v := by
  simp only [countOcc, List.filter_cons]
  by_cases h : (a == v) = true
  · simp [h, Nat.add_comm]
  · simp [h]

theorem countOcc_filter_ne {x v : String} (hne : v ≠ x) (l : List String) :
    countOcc (l.filter (fun y => !(y == x))) v = countOcc l v := by
  induction l with
  | nil => rfl
  | cons a l ih =>
    rw [List.filter_cons, countOcc_cons]
    by_cases hax : (a == x) = true
    · have ha : a = x := by simpa using hax
      have hav : (a == v) = false := by
        subst ha
        exact beq_eq_false_iff_ne.mpr (fun h => hne h.symm)
      simp [hax, hav, ih]
    · simp only [hax, Bool.not_false, if_neg]
      simp only [Bool.not_eq_true', beq_eq_false_iff_ne] at hax
      simp [countOcc_cons, ih]

theorem countOcc_partition (x : String) (l : List String) :
    countOcc l x + (l.filter (fun y => !(y == x))).length = l.length := by
  induction l with
  | nil => rfl
  | cons a l ih =>
    rw [countOcc_cons, List.filter_cons]
    cases hax : (a == x) with
    | true => simp [hax]; omega
    | false => simp [hax]; omega

theorem sum_countOcc_le (S : List String) (hS : S.Nodup) :
    ∀ l : List String, (S.map (fun v => countOcc l v)).sum ≤ l.length := by
  induction S with
  | nil => intro l; simp
  | cons x S ih =>
    intro l
    rcases List.nodup_cons.mp hS with ⟨hx, hS2⟩
    rw [List.map_cons, List.sum_cons]
    have hmap : S.map (fun v => countOcc l v) =
        S.map (fun v => countOcc (l.filter (fun y => !(y == x))) v) := by
      refine List.map_congr_left ?_
      intro v hv
      refine (countOcc_filter_ne ?_ l).symm
      intro h
      subst h
      exact hx hv
    rw [hmap]
    calc countOcc l x + (S.map (fun v => countOcc (l.filter (fun y => !(y == x))) v)).sum
        ≤ countOcc l x + (l.filter (fun y => !(y == x))).length :=
          Nat.add_le_add_left (ih hS2 _) _
      _ = l.length := countOcc_partition x l

theorem sublist_sum_le {l₁ l₂ : List Nat} (h : l₁ <+ l₂) : l₁.sum ≤ l₂.sum := by
  induction h with
  | slnil => exact Nat.le_refl 0
  | cons a _h ih => simpa using Nat.le_trans ih (Nat.le_add_left _ _)
  | cons₂ a _h ih => simpa using Nat.add_le_add_left ih a

/-! ### Lemmas about `value_counts` and `get_top_vehicle_brands` -/

theorem value_counts_length (l : List String) :
    (value_counts l).length = (firstSeen l).length := by
  unfold value_counts
  rw [(sortDesc_perm _).length_eq, List.length_map]

theorem value_counts_sum_le (l : List String) :
    ((value_counts l).map Prod.snd).sum ≤ l.length := by
  unfold value_counts
  have hperm := ((sortDesc_perm ((firstSeen l).map (fun v => (v, countOcc l v)))).map Prod.snd)
  rw [List.Perm.sum_eq hperm, List.map_map]
  have : (Prod.snd ∘ fun v => (v, countOcc l v)) = fun v => countOcc l v := rfl
  rw [this]
  exact sum_countOcc_le (firstSeen l) (firstSeen_nodup l) l

theorem get_top_sublist_value_counts (makes : List String) (limit : Int) :
    get_top_vehicle_brands makes limit <+ value_counts makes := by
  unfold get_top_vehicle_brands
  by_cases h : makes.isEmpty
  · rw [if_pos h]; exact List.nil_sublist _
  · rw [if_neg h]
    unfold seriesHead
    by_cases hl : (0 : Int) ≤ limit
    · rw [if_pos hl]; exact List.take_sublist _ _
    · rw [if_neg hl]; exact List.take_sublist _ _

theorem get_top_pairwise (makes : List String) (limit : Int) :
    (get_top_vehicle_brands makes limit).Pairwise (fun p q => q.2 ≤ p.2) :=
  (sortDesc_pairwise _).sublist (get_top_sublist_value_counts makes limit)

/-- C2: `get_top_vehicle_brands` is sorted descending by count; among entries
carrying any fixed count, the brand names form a subsequence of the distinct
input values listed in first-appearance order (ties keep first-seen order);
and on `["Ford","Ford","GM","GM"]` with limit 2 the result is
`[(Ford,2),(GM,2)]` in that order. -/
theorem top_brands_sorted_stable :
    (∀ (makes : List String) (limit : Int),
      (get_top_vehicle_brands makes limit).Pairwise (fun p q => q.2 ≤ p.2) ∧
      ∀ c : Nat,
        ((get_top_vehicle_brands makes limit).filter (fun p => p.2 == c)).map Prod.fst <+
          (firstSeen makes).filter (fun v => countOcc makes v == c)) ∧
    get_top_vehicle_brands ["Ford", "Ford", "GM", "GM"] 2 = [("Ford", 2), ("GM", 2)] := by
  refine ⟨fun makes limit => ⟨get_top_pairwise makes limit, fun c => ?_⟩, by decide⟩
  have h1 : ((get_top_vehicle_brands makes limit).filter (fun p => p.2 == c)).map Prod.fst <+
      ((value_counts makes).filter (fun p => p.2 == c)).map Prod.fst :=
    Sublist.map _ (Sublist.filter _ (get_top_sublist_value_counts makes limit))
  refine h1.trans ?_
  unfold value_counts
  rw [sortDesc_filter, List.filter_map, List.map_map]
  have h2 : ((fun p : String × Nat => p.2 == c) ∘ fun v => (v, countOcc makes v)) =
      fun v => countOcc makes v == c := rfl
  have h3 : (Prod.fst ∘ fun v => (v, countOcc makes v)) = id := rfl
  rw [h2, h3, List.map_id]

/-- C5 counterexample: with the negative limit `-1` on three distinct values,
pandas `head` keeps all but the last entry, so the code returns 2 entries while
`min(limit, distinct) = -1`; the claimed length formula fails for negative
limits. -/
theorem top_brands_negative_limit :
    ((get_top_vehicle_brands ["a", "b", "c"] (-1)).length : Int) ≠
      min (-1 : Int) ((firstSeen ["a", "b", "c"]).length : Int) := by
  decide

/-- C5 amended: for every makes sequence and every NON-NEGATIVE limit,
`get_top_vehicle_brands` returns exactly `min(limit, number of distinct input
values)` entries; for every limit the returned counts are non-increasing, the
sum of all returned counts is at most the input length, and empty input yields
the empty sequence.  (For a negative limit the code instead drops the last
`|limit|` entries, per pandas `head`.) -/
theorem top_brands_bounds (makes : List String) (limit : Int) :
    (0 ≤ limit →
      (get_top_vehicle_brands makes limit).length =
        min limit.toNat (firstSeen makes).length) ∧
    (get_top_vehicle_brands makes limit).Pairwise (fun p q => q.2 ≤ p.2) ∧
    ((get_top_vehicle_brands makes limit).map Prod.snd).sum ≤ makes.length ∧
    get_top_vehicle_brands [] limit = [] := by
  refine ⟨?_, get_top_pairwise makes limit, ?_, rfl⟩
  · intro hl
    unfold get_top_vehicle_brands
    by_cases h : makes.isEmpty
    · rw [if_pos h]
      have : makes = [] := List.isEmpty_iff.mp h
      subst this
      simp [firstSeen, firstSeenAux]
    · rw [if_neg h]
      unfold seriesHead
      rw [if_pos hl, List.length_take, value_counts_length]
  · calc ((get_top_vehicle_brands makes limit).map Prod.snd).sum
        ≤ ((value_counts makes).map Prod.snd).sum :=
          sublist_sum_le (Sublist.map _ (get_top_sublist_value_counts makes limit))
      _ ≤ makes.length := value_counts_sum_le makes

/-- C5 witness: the amended length formula at a concrete input. -/
theorem top_brands_bounds_witness :
    (get_top_vehicle_brands ["Ford", "Ford", "GM"] 2).length =
      min (2 : Int).toNat (firstSeen ["Ford", "Ford", "GM"]).length :=
  (top_brands_bounds ["Ford", "Ford", "GM"] 2).1 (by decide)

/-- C1 amended: `extract_vehicle_makes` includes a record's string-coerced and
trimmed `vehicleMake` value exactly when the field is present with a Python-truthy
raw value; the truthiness test precedes coercion and trimming, so a record whose
field is a whitespace-only string is kept and contributes an empty string. -/
theorem extract_makes_membership (records : List PyDict) (s : String) :
    s ∈ extract_vehicle_makes records ↔
      ∃ crash, crash ∈ records ∧ ∃ v, crash.lookup "vehicleMake" = some v ∧
        truthy v = true ∧ pyStrip (pyStr v) = s := by
  rw [extract_eq_filterMap, List.mem_filterMap]
  constructor
  · rintro ⟨crash, hc, he⟩
    refine ⟨crash, hc, ?_⟩
    unfold extractOne at he
    cases h : crash.lookup "vehicleMake" with
    | none => rw [h] at he; cases he
    | some v =>
      rw [h] at he
      cases ht : truthy v with
      | false => simp [ht] at he
      | true => simp [ht] at he; exact ⟨v, rfl, ht, he⟩
  · rintro ⟨crash, hc, v, hv, ht, hs⟩
    refine ⟨crash, hc, ?_⟩
    unfold extractOne
    rw [hv]
    simp [ht, hs]

/-! ### Region resolution -/

/-- C6: region resolution is a pure function: the input is uppercased and, if
it is a full jurisdiction name in the fixed 51-entry lookup table (so the
comparison is case-insensitive), the two-letter code is substituted; otherwise
the uppercased input passes through unchanged.  "California" maps to "CA",
"michigan" maps to "MI", and unknown "ZZ" stays "ZZ". -/
theorem resolve_state_spec :
    STATE_CODE_MAP.length = 51 ∧
    (∀ s code, STATE_CODE_MAP.lookup (pyUpper s) = some code → resolve_state s = code) ∧
    (∀ s, STATE_CODE_MAP.lookup (pyUpper s) = Option.none → resolve_state s = pyUpper s) ∧
    resolve_state "California" = "CA" ∧
    resolve_state "michigan" = "MI" ∧
    resolve_state "ZZ" = "ZZ" := by
  refine ⟨by decide, ?_, ?_, by decide, by decide, by decide⟩
  · intro s code h
    unfold resolve_state
    rw [h]
    rfl
  · intro s h
    unfold resolve_state
    rw [h]
    rfl

/-- C6 witness: the two conditional clauses of `resolve_state_spec` applied at
concrete inputs. -/
theorem resolve_state_spec_witness :
    resolve_state "Texas" = "TX" ∧ resolve_state "zz" = pyUpper "zz" :=
  ⟨resolve_state_spec.2.1 "Texas" "TX" (by decide),
   resolve_state_spec.2.2.1 "zz" (by decide)⟩

/-! ### Fetcher -/

/-- C3 counterexample: a response body whose `Results` list starts with the
string `"abc"` — a non-list first element — makes the fetcher return that
string as-is (Python `len` succeeds on a string), not an empty sequence. -/
theorem parse_results_string_first_element :
    parse_results (Py.dict [("Results", Py.list [Py.str "abc"])]) = Py.str "abc" ∧
    Py.str "abc" ≠ Py.list [] :=
  ⟨rfl, fun h => Py.noConfusion h⟩

/-- C3 amended: the fetcher returns the first element of the `Results` list
whenever `Results` is present and is a non-empty list and the first element
supports `len` (is a list, string or mapping) — it is NOT checked to be a list
of records; a first element without a length makes the success-message `len`
call raise, which the handler converts to empty, and a missing `Results`, a
non-list `Results`, an empty list, or a non-dict body all yield empty without
raising. -/
theorem parse_results_dict (fields : List (String × Py)) :
    parse_results (Py.dict fields) =
      match (fields.lookup "Results").getD (Py.list []) with
      | Py.list (first :: _) => if hasLen first then first else Py.list []
      | _ => Py.list [] := rfl

theorem parse_results_shape_cases (fields : List (String × Py)) (f : Py) (rest : List Py) :
    (fields.lookup "Results" = some (Py.list (f :: rest)) → hasLen f = true →
      parse_results (Py.dict fields) = f) ∧
    (fields.lookup "Results" = some (Py.list (f :: rest)) → hasLen f = false →
      parse_results (Py.dict fields) = Py.list []) ∧
    (fields.lookup "Results" = Option.none → parse_results (Py.dict fields) = Py.list []) ∧
    (fields.lookup "Results" = some (Py.list []) → parse_results (Py.dict fields) = Py.list []) ∧
    (∀ v, fields.lookup "Results" = some v → (∀ xs, v ≠ Py.list xs) →
      parse_results (Py.dict fields) = Py.list []) ∧
    (∀ b : Py, (∀ fs, b ≠ Py.dict fs) → parse_results b = Py.list []) := by
  refine ⟨?_, ?_, ?_, ?_, ?_, ?_⟩
  · intro h hf
    rw [parse_results_dict, h]
    simp [hf]
  · intro h hf
    rw [parse_results_dict, h]
    simp [hf]
  · intro h
    rw [parse_results_dict, h]
    rfl
  · intro h
    rw [parse_results_dict, h]
    rfl
  · intro v h hv
    rw [parse_results_dict, h]
    cases v with
    | list xs => exact absurd rfl (hv xs)
    | none => rfl
    | str s => rfl
    | int n => rfl
    | bool b => rfl
    | dict fs => rfl
  · intro b hb
    cases b with
    | dict fs => exact absurd rfl (hb fs)
    | none => rfl
    | str s => rfl
    | int n => rfl
    | bool b => rfl
    | list xs => rfl

/-- C3 witness: the first clause of `parse_results_shape_cases` at a concrete
body whose first `Results` element is a list of records. -/
theorem parse_results_shape_cases_witness :
    parse_results (Py.dict [("Results", Py.list [Py.list [Py.dict []]])]) =
      Py.list [Py.dict []] :=
  (parse_results_shape_cases [("Results", Py.list [Py.list [Py.dict []]])]
    (Py.list [Py.dict []]) []).1 (by rfl) (by rfl)

/-- C4 counterexample: with a non-placeholder key, the "unexpected shape"
`{"Results": ["abc"]}` does NOT yield an empty sequence — the string first
element is returned as the record collection. -/
theorem fetch_string_first_element_not_empty :
    (fetch_with_key "real-key"
        (HttpResp.ok (Py.dict [("Results", Py.list [Py.str "abc"])]))).1 = Py.str "abc" ∧
    Py.str "abc" ≠ Py.list [] :=
  ⟨rfl, fun h => Py.noConfusion h⟩

/-- C4 amended: `fetch_crash_data` never raises (it is total and every handler
returns): the placeholder key yields an empty sequence with no network request
attempted; network failure, HTTP error status and malformed JSON each yield an
empty sequence; and an `ok` body is handled by `parse_results`, which yields
empty for every unexpected shape EXCEPT a non-empty `Results` list whose first
element is a non-list value with a length (a string or mapping), which is
returned as-is. -/
theorem fetch_error_policy (key : String) (resp : HttpResp) :
    (∀ r, fetch_with_key "YOUR_NHTSA_API_KEY" r = (Py.list [], false)) ∧
    (fetch_with_key key HttpResp.netError).1 = Py.list [] ∧
    (fetch_with_key key HttpResp.httpStatusError).1 = Py.list [] ∧
    (fetch_with_key key HttpResp.invalidJson).1 = Py.list [] ∧
    (key ≠ "YOUR_NHTSA_API_KEY" →
      ∀ body, fetch_with_key key (HttpResp.ok body) = (parse_results body, true)) ∧
    fetch_crash_data resp = (Py.list [], false) := by
  refine ⟨fun r => rfl, ?_, ?_, ?_, ?_, rfl⟩
  · unfold fetch_with_key
    by_cases h : key = "YOUR_NHTSA_API_KEY"
    · rw [if_pos h]
    · rw [if_neg h]
  · unfold fetch_with_key
    by_cases h : key = "YOUR_NHTSA_API_KEY"
    · rw [if_pos h]
    · rw [if_neg h]
  · unfold fetch_with_key
    by_cases h : key = "YOUR_NHTSA_API_KEY"
    · rw [if_pos h]
    · rw [if_neg h]
  · intro h body
    unfold fetch_with_key
    rw [if_neg h]

/-- C4 witness: the conditional clause of `fetch_error_policy` at a concrete
non-placeholder key and body. -/
theorem fetch_error_policy_witness :
    fetch_with_key "real-key" (HttpResp.ok (Py.dict [])) =
      (parse_results (Py.dict []), true) :=
  (fetch_error_policy "real-key" HttpResp.netError).2.2.2.2.1 (by decide) (Py.dict [])

/-! ### Reporter and pipeline -/

/-- C8: an empty brand-count sequence makes the plotter warn and skip
rendering; an empty record list short-circuits the pipeline (extractor and
aggregator both map empty to empty) to the nothing-to-report outcome with no
file write and no chart, without erroring. -/
theorem empty_pipeline_short_circuit :
    plot_top_brands [] = PlotResult.warned ∧
    extract_vehicle_makes [] = [] ∧
    get_top_vehicle_brands [] 10 = [] ∧
    get_top_vehicle_brands (extract_vehicle_makes []) 10 = [] ∧
    run_pipeline [] = PipelineOutcome.noData :=
  ⟨rfl, rfl, rfl, rfl, rfl⟩

/-- C9: for every non-empty ranked brand-count sequence, the written file is a
header row whose first column is "Vehicle Brand" followed by exactly one row
per entry, in the same order as the input sequence; and any rows the pipeline
reports are exactly the CSV rendering of the ranking it computed (no
re-sorting by the reporter). -/
theorem csv_report_rows (top : List (String × Nat)) (_h : top ≠ []) :
    (csvRows top).head? = some ["Vehicle Brand", "count"] ∧
    (csvRows top).length = top.length + 1 ∧
    (∀ i (hi : i < top.length),
      (csvRows top)[i + 1]? = some [(top[i]).1, toString (top[i]).2]) ∧
    (∀ (crash_data : List PyDict) rows plot,
      run_pipeline crash_data = PipelineOutcome.reported rows plot →
      rows = csvRows (get_top_vehicle_brands (extract_vehicle_makes crash_data) 10)) := by
  refine ⟨rfl, by simp [csvRows], ?_, ?_⟩
  · intro i hi
    simp [csvRows, List.getElem?_map, List.getElem?_eq_getElem hi]
  · intro crash_data rows plot hrun
    unfold run_pipeline at hrun
    by_cases h1 : crash_data.isEmpty
    · rw [if_pos h1] at hrun; exact PipelineOutcome.noConfusion hrun
    · rw [if_neg h1] at hrun
      by_cases h2 : (extract_vehicle_makes crash_data).isEmpty
      · rw [if_pos h2] at hrun; exact PipelineOutcome.noConfusion hrun
      · rw [if_neg h2] at hrun
        by_cases h3 :
            (!(get_top_vehicle_brands (extract_vehicle_makes crash_data) 10).isEmpty) = true
        · rw [if_pos h3] at hrun
          exact (PipelineOutcome.reported.injEq _ _ _ _ ▸ hrun).1.symm
        · rw [if_neg h3] at hrun; exact PipelineOutcome.noConfusion hrun

/-- C9 witness: the header clause at a concrete one-entry ranking. -/
theorem csv_report_rows_witness :
    (csvRows [("Ford", 2)]).head? = some ["Vehicle Brand", "count"] :=
  (csv_report_rows [("Ford", 2)] (by decide)).1
